import Mathlib

/-!
Shallow embedding of the esbuild-loader webpack loader (`src/index.ts`, the
dependency-aware variant) in Lean 4.

The loader is an async webpack loader: per file it receives the source text
and a loader context (resource path, source-map flag, `async()` completion
handle, warning channel), resolves an optional project tsconfig, assembles an
esbuild transform request, invokes the transformer and relays the result.

External collaborators (`path.resolve`, `get-tsconfig`'s `parseTsconfig`,
`getTsconfig` and `createFilesMatcher`, `JSON.parse`, and the default esbuild
`transform`) are modelled as an explicit environment of pure functions; the
process-wide `tsconfigCache` is threaded explicitly as state.  The output
record captures the completion-handle call, the warnings emitted, the cache
after the call, which paths the loader itself parsed or ran discovery on,
which strings it JSON-parsed, and the transform request passed to the
transformer (if it was invoked at all).

Paths are modelled POSIX-style: `path.sep` is `"/"`.
-/

namespace EsbuildLoader

/-- A parsed tsconfig's `config` content, kept abstract (its structure is
opaque to the loader: it is only looked up, stored and forwarded). -/
abbrev TsConfigJson := String

/-- `TsConfigResult` from get-tsconfig: resolved path plus parsed content. -/
structure TsConfigResult where
  config : TsConfigJson
  path : String
deriving DecidableEq, Repr

/-- The value sitting under a `tsconfigRaw` key of a transform-options
object: either `undefined` (`none`) or a raw config object. -/
abbrev TsRaw := Option TsConfigJson

/-- The process-wide `tsconfigCache` map. Newer bindings are consed on and
shadow older ones, matching `Map.set` under `Map.get` observation. -/
abbrev Cache := List (String × TsConfigResult)

def cacheGet (c : Cache) (k : String) : Option TsConfigResult :=
  (c.find? (fun e => e.1 == k)).map (fun e => e.2)

def cacheSet (c : Cache) (k : String) (v : TsConfigResult) : Cache :=
  (k, v) :: c

/-- A JavaScript error value: the loader distinguishes `TypeError` (invalid
implementation option) from plain `Error` (everything else). -/
inductive JsErr where
  | typeError (msg : String)
  | error (msg : String)
deriving DecidableEq, Repr

/-- What the transformer may produce: code plus an optional source-map
string (esbuild returns a string; a custom implementation may return `""`
or no map at all). -/
structure TransformResult where
  code : String
  map : Option String
deriving DecidableEq, Repr

/-- The transform request object assembled by the loader and handed to the
transformer.  `rest` are the caller's pass-through options forwarded
verbatim (values kept abstract as strings); `tsconfigRaw = none` means the
key is absent, `some v` that the key is present with value `v`;
`supported` is the capability-flags object, as an association list built by
object-literal/spread evaluation where a later entry overrides an earlier
one. -/
structure TransformOptions where
  rest : List (String × String)
  target : String
  loader : String
  sourcemap : Bool
  sourcefile : String
  tsconfigRaw : Option TsRaw
  supported : List (String × Bool)
deriving DecidableEq, Repr

/-- Reading key `k` of a JS object built as an assoc list with later
entries overriding earlier ones (object-literal / spread semantics). -/
def objGet : List (String × Bool) → String → Option Bool
  | [], _ => none
  | e :: rest, k =>
    match objGet rest k with
    | some v => some v
    | none => if e.1 == k then some e.2 else none

/-- A JavaScript value, as far as the loader inspects one: enough to compute
`typeof` and to call it when it is a function. -/
inductive JsValue where
  | undefinedV
  | nullV
  | boolean (b : Bool)
  | number (n : Int)
  | stringV (s : String)
  | object
  | fn (f : String → TransformOptions → Except JsErr TransformResult)

/-- JavaScript `typeof`. -/
def jsTypeof : JsValue → String
  | .undefinedV => "undefined"
  | .nullV => "object"
  | .boolean _ => "boolean"
  | .number _ => "number"
  | .stringV _ => "string"
  | .object => "object"
  | .fn _ => "function"

/-- Calling a JS value as a function: applies it when it is one, otherwise
throws a `TypeError` (JS call semantics). -/
def jsCall (v : JsValue) (source : String) (opts : TransformOptions) :
    Except JsErr TransformResult :=
  match v with
  | .fn f => f source opts
  | _ => .error (.typeError "transform is not a function")

/-- The `implementation` option: an object exposing a `transform` member. -/
structure Implementation where
  transform : JsValue

/-- The loader's options bag.  `implementation` and `tsconfig` are the two
keys destructured away before the rest is forwarded; `tsconfigRaw`,
`target`, `loader` and `supported` are the forwarded keys the loader reads
or rewrites (`none` = key absent / undefined); `rest` is everything else,
forwarded verbatim. -/
structure LoaderOptions where
  implementation : Option Implementation
  tsconfig : Option String
  tsconfigRaw : Option TsRaw
  target : Option String
  loader : Option String
  supported : Option (List (String × Bool))
  rest : List (String × String)

/-- One loader invocation's inputs: the source text plus the loader
context's `resourcePath` and `sourceMap` flag, and the options bag. -/
structure LoaderInput where
  source : String
  resourcePath : String
  sourceMap : Bool
  options : LoaderOptions

/-- The environment of external collaborators, as pure functions.
`parseTsconfig` and `getTsconfig` may throw (modelled as `.error` carrying
the thrown `Error`'s message; get-tsconfig only throws `Error`s);
`getTsconfig` returns `none` when no tsconfig file is found.
`filesMatcher t p` is whether `createFilesMatcher t` applied to `p` returns
the config (true) or `undefined` (false).  `jsonParse` is `JSON.parse`,
which may throw. -/
structure LoaderEnv where
  resolvePath : String → String
  parseTsconfig : String → Except String TsConfigJson
  getTsconfig : String → Except String (Option TsConfigResult)
  filesMatcher : TsConfigResult → String → Bool
  jsonParse : String → Except String String
  defaultTransform : String → TransformOptions → Except JsErr TransformResult

/-- The third argument of `done(null, code, map && JSON.parse(map))`:
`undefined` when no map, the falsy string itself when `map` is falsy
(`""`), the parsed object otherwise. -/
inductive MapArg where
  | undef
  | falsyStr (s : String)
  | parsed (m : String)
deriving DecidableEq, Repr

/-- How the single per-file completion handle was called (or, for an
exception escaping the async function outside the try/catch, not called). -/
inductive Outcome where
  | doneFailure (e : JsErr)
  | doneSuccess (code : String) (map : MapArg)
  | thrown (e : JsErr)
deriving DecidableEq, Repr

/-- Everything observable about one loader invocation. -/
structure LoaderOutput where
  outcome : Outcome
  warnings : List String
  cacheOut : Cache
  parsedPaths : List String
  discoveryPaths : List String
  jsonParsedStrings : List String
  transformCalledWith : Option (String × TransformOptions)
deriving DecidableEq

/-- `resourcePath.includes(path.sep + "node_modules" + path.sep)`. -/
def isDependency (resourcePath : String) : Bool :=
  decide ("/node_modules/".toList <:+: resourcePath.toList)

/-- `tsExtensionsPattern = /\.(?:[cm]?ts|[tj]sx)$/` as a suffix test. -/
def tsExtensionsPattern (p : String) : Bool :=
  [".ts", ".cts", ".mts", ".tsx", ".jsx"].any
    (fun ext => decide (ext.toList <:+ p.toList))

/-- JS truthiness of the `tsconfig` option (a string option: truthy iff
present and non-empty). -/
def truthyOptStr : Option String → Bool
  | none => false
  | some s => s != ""

/-- The guard `implementation && typeof implementation.transform !==
'function'`. -/
def implTransformTypeof : Option Implementation → String
  | none => "undefined"
  | some i => jsTypeof i.transform

def implInvalid (o : Option Implementation) : Bool :=
  o.isSome && implTransformTypeof o != "function"

/-- The `TypeError` message built for an invalid implementation option. -/
def implErrorMessage (o : Option Implementation) : String :=
  "esbuild-loader: options.implementation.transform must be an ESBuild transform function. Received "
    ++ implTransformTypeof o

/-- `implementation?.transform ?? defaultEsbuildTransform`, with JS call
semantics on the selected value. -/
def selectTransform
    (defaultTransform : String → TransformOptions → Except JsErr TransformResult)
    (o : Option Implementation) :
    String → TransformOptions → Except JsErr TransformResult :=
  match o with
  | none => defaultTransform
  | some impl =>
    match impl.transform with
    | .undefinedV => defaultTransform
    | .nullV => defaultTransform
    | v => jsCall v

/-- The warning emitted when an explicitly specified tsconfig does not
match the file (exact message of the source, including its stray `]`). -/
def mismatchWarning (tsconfigFullPath resourcePath : String) : String :=
  "esbuild-loader] The specified tsconfig at \"" ++ tsconfigFullPath
    ++ "\" was applied to the file \"" ++ resourcePath
    ++ "\" but does not match its \"include\" patterns"

/-- The wrapper put around a tsconfig-discovery parse error. -/
def wrapDiscoveryError (msg : String) : String :=
  "[esbuild-loader] Error parsing tsconfig.json:\n" ++ msg

/-- Side effects accumulated by the tsconfig-resolution block. -/
structure ResolveState where
  warnings : List String
  cache : Cache
  parsedPaths : List String
  discoveryPaths : List String
deriving DecidableEq

/-- Result of the tsconfig-resolution block: an exception escaping the
async function (`parseTsconfig` throwing outside any try/catch), an early
`done(error)` return, or fall-through to the transform call with the final
value of the `tsconfigRaw` key. -/
inductive ResolveResult where
  | thrownR (e : JsErr) (st : ResolveState)
  | abort (e : JsErr) (st : ResolveState)
  | proceedR (raw : Option TsRaw) (st : ResolveState)
deriving DecidableEq

/-- Tail of the explicit-tsconfig branch: evaluate the files matcher, warn
on mismatch, and force-apply the config. -/
def explicitFinish (env : LoaderEnv) (cache : Cache)
    (resourcePath tsconfigFullPath : String) (tsconfig : TsConfigResult)
    (parsed : List String) : ResolveResult :=
  let matched := env.filesMatcher tsconfig resourcePath
  let warnings :=
    if matched then [] else [mismatchWarning tsconfigFullPath resourcePath]
  .proceedR (some (some tsconfig.config)) ⟨warnings, cache, parsed, []⟩

/-- The explicit-tsconfig branch (`!isDependency && tsconfigPath`):
resolve the path, look up or populate the cache under the
`esbuild-loader:`-prefixed key, then force-apply with a mismatch warning. -/
def explicitBranch (env : LoaderEnv) (cache : Cache)
    (resourcePath p : String) : ResolveResult :=
  let tsconfigFullPath := env.resolvePath p
  let cacheKey := "esbuild-loader:" ++ tsconfigFullPath
  match cacheGet cache cacheKey with
  | some tsconfig =>
    explicitFinish env cache resourcePath tsconfigFullPath tsconfig []
  | none =>
    match env.parseTsconfig tsconfigFullPath with
    | .error e => .thrownR (.error e) ⟨[], cache, [tsconfigFullPath], []⟩
    | .ok cfg =>
      let tsconfig : TsConfigResult := ⟨cfg, tsconfigFullPath⟩
      explicitFinish env (cacheSet cache cacheKey tsconfig) resourcePath
        tsconfigFullPath tsconfig [tsconfigFullPath]

/-- The auto-discovery branch: `getTsconfig(resourcePath, 'tsconfig.json',
cache)` in a try/catch.  A parse error is a warning for dependency files
and `done(error)` for project files; a found config is applied only through
the files matcher (`fileMatcher(resourcePath)`, the config on match and
`undefined` otherwise). -/
def autoBranch (env : LoaderEnv) (cache : Cache) (resourcePath : String)
    (isDep : Bool) (userRaw : Option TsRaw) : ResolveResult :=
  match env.getTsconfig resourcePath with
  | .error msg =>
    if isDep then
      .proceedR userRaw ⟨[wrapDiscoveryError msg], cache, [], [resourcePath]⟩
    else
      .abort (.error (wrapDiscoveryError msg)) ⟨[], cache, [], [resourcePath]⟩
  | .ok none => .proceedR userRaw ⟨[], cache, [], [resourcePath]⟩
  | .ok (some tsconfig) =>
    .proceedR
      (some (if env.filesMatcher tsconfig resourcePath
             then some tsconfig.config else none))
      ⟨[], cache, [], [resourcePath]⟩

/-- The whole tsconfig-resolution block (source lines 51-112): skipped when
the caller supplied `tsconfigRaw` or the file is a non-TypeScript
dependency; otherwise explicit branch for non-dependency files with a
truthy `tsconfig` option, auto-discovery for everything else. -/
def resolveTsconfig (env : LoaderEnv) (cache : Cache) (resourcePath : String)
    (tsconfigPath : Option String) (userRaw : Option TsRaw) : ResolveResult :=
  let isDep := isDependency resourcePath
  if userRaw.isNone && (!isDep || tsExtensionsPattern resourcePath) then
    match tsconfigPath with
    | some p =>
      if !isDep && (p != "") then explicitBranch env cache resourcePath p
      else autoBranch env cache resourcePath isDep userRaw
    | none => autoBranch env cache resourcePath isDep userRaw
  else
    .proceedR userRaw ⟨[], cache, [], []⟩

/-- The transform request finally handed to the transformer:
`{...esbuildTransformOptions, target: options.target ?? 'es2015', loader:
options.loader ?? 'default', sourcemap, sourcefile}`, `tsconfigRaw` as the
resolution block left it, and `supported = {'dynamic-import': true,
...transformOptions.supported}`. -/
def buildTransformOptions (input : LoaderInput) (raw : Option TsRaw) :
    TransformOptions :=
  { rest := input.options.rest
    target := input.options.target.getD "es2015"
    loader := input.options.loader.getD "default"
    sourcemap := input.sourceMap
    sourcefile := input.resourcePath
    tsconfigRaw := raw
    supported :=
      ("dynamic-import", true) :: (input.options.supported.getD []) }

/-- The final `try { const { code, map } = await transform(source,
transformOptions); done(null, code, map && JSON.parse(map)); } catch
(error) { done(error); }`. -/
def finishTransform (env : LoaderEnv)
    (tf : String → TransformOptions → Except JsErr TransformResult)
    (source : String) (opts : TransformOptions) (st : ResolveState) :
    LoaderOutput :=
  match tf source opts with
  | .error e =>
    ⟨.doneFailure e, st.warnings, st.cache, st.parsedPaths,
      st.discoveryPaths, [], some (source, opts)⟩
  | .ok r =>
    match r.map with
    | none =>
      ⟨.doneSuccess r.code .undef, st.warnings, st.cache, st.parsedPaths,
        st.discoveryPaths, [], some (source, opts)⟩
    | some s =>
      if s = "" then
        ⟨.doneSuccess r.code (.falsyStr s), st.warnings, st.cache,
          st.parsedPaths, st.discoveryPaths, [], some (source, opts)⟩
      else
        match env.jsonParse s with
        | .ok m =>
          ⟨.doneSuccess r.code (.parsed m), st.warnings, st.cache,
            st.parsedPaths, st.discoveryPaths, [s], some (source, opts)⟩
        | .error e =>
          ⟨.doneFailure (.error e), st.warnings, st.cache, st.parsedPaths,
            st.discoveryPaths, [s], some (source, opts)⟩

/-- The loader itself (`ESBuildLoader` in the source): validate the
`implementation` option, resolve the tsconfig, assemble the transform
request and call the transformer. -/
def ESBuildLoader (env : LoaderEnv) (cache : Cache) (input : LoaderInput) :
    LoaderOutput :=
  let options := input.options
  if implInvalid options.implementation then
    ⟨.doneFailure (.typeError (implErrorMessage options.implementation)),
      [], cache, [], [], [], none⟩
  else
    let tf := selectTransform env.defaultTransform options.implementation
    match resolveTsconfig env cache input.resourcePath options.tsconfig
        options.tsconfigRaw with
    | .thrownR e st =>
      ⟨.thrown e, st.warnings, st.cache, st.parsedPaths, st.discoveryPaths,
        [], none⟩
    | .abort e st =>
      ⟨.doneFailure e, st.warnings, st.cache, st.parsedPaths,
        st.discoveryPaths, [], none⟩
    | .proceedR raw st =>
      finishTransform env tf input.source (buildTransformOptions input raw) st

/-- The `tsconfigRaw` value of the transform request, when the transformer
was invoked: `none` = transformer not invoked, `some none` = key absent,
`some (some v)` = key present with value `v`. -/
def injectedTsconfigRaw (out : LoaderOutput) : Option (Option TsRaw) :=
  out.transformCalledWith.map (fun x => x.2.tsconfigRaw)

/-- What the explicit-tsconfig branch resolves a path `p` to: the cached
record for `esbuild-loader:` + resolved path if present, otherwise the
freshly parsed one (`none` if parsing throws). -/
def explicitLookup (env : LoaderEnv) (cache : Cache) (p : String) :
    Option TsConfigResult :=
  let fullPath := env.resolvePath p
  match cacheGet cache ("esbuild-loader:" ++ fullPath) with
  | some r => some r
  | none =>
    match env.parseTsconfig fullPath with
    | .ok cfg => some ⟨cfg, fullPath⟩
    | .error _ => none

/-! ## Concrete fixtures used by the witness theorems -/

/-- A transformer that appends a `;` and reports map `m`. -/
def fixTransform (m : Option String) :
    String → TransformOptions → Except JsErr TransformResult :=
  fun s _ => .ok ⟨s ++ ";", m⟩

def baseEnv : LoaderEnv :=
  { resolvePath := fun p => "/proj/" ++ p
    parseTsconfig := fun _ => .ok "cfgA"
    getTsconfig := fun _ => .ok none
    filesMatcher := fun _ _ => true
    jsonParse := fun s => .ok ("json:" ++ s)
    defaultTransform := fixTransform (some "MAP") }

def envDiscErr : LoaderEnv :=
  { baseEnv with getTsconfig := fun _ => .error "bad json" }

def envFound : LoaderEnv :=
  { baseEnv with
    getTsconfig := fun _ => .ok (some ⟨"cfgB", "/proj/tsconfig.json"⟩) }

def envNoMap : LoaderEnv :=
  { baseEnv with defaultTransform := fixTransform none }

def baseOptions : LoaderOptions :=
  { implementation := none, tsconfig := none, tsconfigRaw := none,
    target := none, loader := none, supported := none, rest := [] }

def inputProj : LoaderInput :=
  { source := "let x", resourcePath := "/proj/src/a.ts", sourceMap := true,
    options := baseOptions }

def inputProjTs : LoaderInput :=
  { inputProj with
    options := { baseOptions with tsconfig := some "tsconfig.json" } }

def inputDepTs : LoaderInput :=
  { inputProj with resourcePath := "/proj/node_modules/pkg/a.ts" }

def inputDepTsExpl : LoaderInput :=
  { inputDepTs with
    options := { baseOptions with tsconfig := some "tsconfig.json" } }

def inputDepJs : LoaderInput :=
  { inputProj with resourcePath := "/proj/node_modules/pkg/a.js" }

def inputDepJsExpl : LoaderInput :=
  { inputDepJs with
    options := { baseOptions with tsconfig := some "tsconfig.json" } }

def inputRaw : LoaderInput :=
  { inputProj with
    options := { baseOptions with tsconfigRaw := some (some "RAW") } }

def inputBadImpl : LoaderInput :=
  { inputProj with
    options := { baseOptions with implementation := some ⟨.number 123⟩ } }

/-! ## Helper lemmas -/

theorem finishTransform_warnings (env : LoaderEnv) (tf) (s : String)
    (opts : TransformOptions) (st : ResolveState) :
    (finishTransform env tf s opts st).warnings = st.warnings := by
  unfold finishTransform
  repeat' split
  all_goals rfl

theorem finishTransform_cacheOut (env : LoaderEnv) (tf) (s : String)
    (opts : TransformOptions) (st : ResolveState) :
    (finishTransform env tf s opts st).cacheOut = st.cache := by
  unfold finishTransform
  repeat' split
  all_goals rfl

theorem finishTransform_parsedPaths (env : LoaderEnv) (tf) (s : String)
    (opts : TransformOptions) (st : ResolveState) :
    (finishTransform env tf s opts st).parsedPaths = st.parsedPaths := by
  unfold finishTransform
  repeat' split
  all_goals rfl

theorem finishTransform_discoveryPaths (env : LoaderEnv) (tf) (s : String)
    (opts : TransformOptions) (st : ResolveState) :
    (finishTransform env tf s opts st).discoveryPaths = st.discoveryPaths := by
  unfold finishTransform
  repeat' split
  all_goals rfl

theorem finishTransform_calledWith (env : LoaderEnv) (tf) (s : String)
    (opts : TransformOptions) (st : ResolveState) :
    (finishTransform env tf s opts st).transformCalledWith = some (s, opts) := by
  unfold finishTransform
  repeat' split
  all_goals rfl

theorem cacheGet_set_self (c : Cache) (k : String) (v : TsConfigResult) :
    cacheGet (cacheSet c k v) k = some v := by
  simp [cacheGet, cacheSet, List.find?]

/-! ## Claim theorems -/

/-- C7: if the `implementation` option is supplied and its `transform`
member is not a function, the loader fails immediately for that file with a
`TypeError` whose message reports the received `typeof`; the transformer is
not invoked, no warning is emitted, and the configuration cache is left
untouched (nothing parsed, no discovery run). -/
theorem C7_invalid_implementation (env : LoaderEnv) (cache : Cache)
    (input : LoaderInput) (impl : Implementation)
    (hImpl : input.options.implementation = some impl)
    (hNotFn : jsTypeof impl.transform ≠ "function") :
    ESBuildLoader env cache input =
      ⟨.doneFailure (.typeError
          ("esbuild-loader: options.implementation.transform must be an ESBuild transform function. Received "
            ++ jsTypeof impl.transform)),
        [], cache, [], [], [], none⟩ := by
  have hval : implInvalid (some impl) = true := by
    simp [implInvalid, implTransformTypeof, hNotFn]
  unfold ESBuildLoader
  simp [hImpl, hval, implErrorMessage, implTransformTypeof]

/-- Witness for C7: the implementation object `{ transform: 123 }` makes
the loader call `done` with a `TypeError` reporting `"number"`. -/
theorem C7_invalid_implementation_witness :
    ESBuildLoader baseEnv [] inputBadImpl =
      ⟨.doneFailure (.typeError
          ("esbuild-loader: options.implementation.transform must be an ESBuild transform function. Received "
            ++ jsTypeof (.number 123))),
        [], [], [], [], [], none⟩ :=
  C7_invalid_implementation baseEnv [] inputBadImpl ⟨.number 123⟩ rfl
    (by decide)

/-- C5: when the options bag already carries a `tsconfigRaw` key, tsconfig
resolution does not run at all (nothing parsed, no discovery, no cache
change, no warning) and the caller's raw configuration reaches the
transformer unchanged. -/
theorem C5_tsconfigRaw_short_circuit (env : LoaderEnv) (cache : Cache)
    (input : LoaderInput) (v : TsRaw)
    (hImpl : implInvalid input.options.implementation = false)
    (hRaw : input.options.tsconfigRaw = some v) :
    (ESBuildLoader env cache input).cacheOut = cache ∧
    (ESBuildLoader env cache input).parsedPaths = [] ∧
    (ESBuildLoader env cache input).discoveryPaths = [] ∧
    (ESBuildLoader env cache input).warnings = [] ∧
    injectedTsconfigRaw (ESBuildLoader env cache input) = some (some v) := by
  have hres : resolveTsconfig env cache input.resourcePath
      input.options.tsconfig input.options.tsconfigRaw =
      .proceedR (some v) ⟨[], cache, [], []⟩ := by
    unfold resolveTsconfig
    simp [hRaw]
  unfold ESBuildLoader
  simp [hImpl, hres, injectedTsconfigRaw, finishTransform_warnings,
    finishTransform_cacheOut, finishTransform_parsedPaths,
    finishTransform_discoveryPaths, finishTransform_calledWith,
    buildTransformOptions]

/-- Witness for C5: with `tsconfigRaw` supplied, the loader forwards it
unchanged and leaves the cache alone. -/
theorem C5_tsconfigRaw_short_circuit_witness :
    (ESBuildLoader baseEnv [] inputRaw).cacheOut = [] ∧
    (ESBuildLoader baseEnv [] inputRaw).parsedPaths = [] ∧
    (ESBuildLoader baseEnv [] inputRaw).discoveryPaths = [] ∧
    (ESBuildLoader baseEnv [] inputRaw).warnings = [] ∧
    injectedTsconfigRaw (ESBuildLoader baseEnv [] inputRaw) =
      some (some (some "RAW")) :=
  C5_tsconfigRaw_short_circuit baseEnv [] inputRaw (some "RAW") rfl rfl

/-- C2: for a dependency file (path containing `/node_modules/`) whose
extension is not a TypeScript-family extension, tsconfig resolution is
skipped entirely: nothing is parsed, no discovery runs, the cache is
untouched, no warning is emitted, and the `tsconfigRaw` key of the
transform request is exactly whatever the caller supplied (in particular
absent when the caller supplied none), regardless of the `tsconfig`
option. -/
theorem C2_nonTs_dependency_skips_resolution (env : LoaderEnv)
    (cache : Cache) (input : LoaderInput)
    (hImpl : implInvalid input.options.implementation = false)
    (hDep : isDependency input.resourcePath = true)
    (hExt : tsExtensionsPattern input.resourcePath = false) :
    (ESBuildLoader env cache input).cacheOut = cache ∧
    (ESBuildLoader env cache input).parsedPaths = [] ∧
    (ESBuildLoader env cache input).discoveryPaths = [] ∧
    (ESBuildLoader env cache input).warnings = [] ∧
    injectedTsconfigRaw (ESBuildLoader env cache input) =
      some input.options.tsconfigRaw := by
  have hres : resolveTsconfig env cache input.resourcePath
      input.options.tsconfig input.options.tsconfigRaw =
      .proceedR input.options.tsconfigRaw ⟨[], cache, [], []⟩ := by
    unfold resolveTsconfig
    simp [hDep, hExt]
  unfold ESBuildLoader
  simp [hImpl, hres, injectedTsconfigRaw, finishTransform_warnings,
    finishTransform_cacheOut, finishTransform_parsedPaths,
    finishTransform_discoveryPaths, finishTransform_calledWith,
    buildTransformOptions]

/-- Witness for C2: `/proj/node_modules/pkg/a.js` with an explicit
`tsconfig` option still gets no configuration resolution at all. -/
theorem C2_nonTs_dependency_skips_resolution_witness :
    (ESBuildLoader baseEnv [] inputDepJsExpl).cacheOut = [] ∧
    (ESBuildLoader baseEnv [] inputDepJsExpl).parsedPaths = [] ∧
    (ESBuildLoader baseEnv [] inputDepJsExpl).discoveryPaths = [] ∧
    (ESBuildLoader baseEnv [] inputDepJsExpl).warnings = [] ∧
    injectedTsconfigRaw (ESBuildLoader baseEnv [] inputDepJsExpl) =
      some none :=
  C2_nonTs_dependency_skips_resolution baseEnv [] inputDepJsExpl rfl
    (by decide) (by decide)

/-- C8: for a dependency file, the explicit-tsconfig branch is never
taken: even with a truthy `tsconfig` option and a TypeScript-family
extension, the loader parses nothing and leaves the cache untouched, and
instead runs automatic discovery on the file's path. -/
theorem C8_dependency_never_explicit (env : LoaderEnv) (cache : Cache)
    (input : LoaderInput) (p : String)
    (hImpl : implInvalid input.options.implementation = false)
    (hRaw : input.options.tsconfigRaw = none)
    (hp : input.options.tsconfig = some p)
    (hDep : isDependency input.resourcePath = true)
    (hExt : tsExtensionsPattern input.resourcePath = true) :
    (ESBuildLoader env cache input).parsedPaths = [] ∧
    (ESBuildLoader env cache input).cacheOut = cache ∧
    (ESBuildLoader env cache input).discoveryPaths = [input.resourcePath] := by
  have hres : resolveTsconfig env cache input.resourcePath
      input.options.tsconfig input.options.tsconfigRaw =
      autoBranch env cache input.resourcePath true none := by
    unfold resolveTsconfig
    simp [hRaw, hp, hDep, hExt]
  unfold ESBuildLoader
  rcases hg : env.getTsconfig input.resourcePath with msg | tOpt
  · simp [hImpl, hres, autoBranch, hg, finishTransform_parsedPaths,
      finishTransform_cacheOut, finishTransform_discoveryPaths]
  · rcases tOpt with _ | t
    · simp [hImpl, hres, autoBranch, hg, finishTransform_parsedPaths,
        finishTransform_cacheOut, finishTransform_discoveryPaths]
    · simp [hImpl, hres, autoBranch, hg, finishTransform_parsedPaths,
        finishTransform_cacheOut, finishTransform_discoveryPaths]

/-- Witness for C8: a TypeScript dependency file with an explicit
`tsconfig` option runs discovery on its own path instead of using the
explicit path. -/
theorem C8_dependency_never_explicit_witness :
    (ESBuildLoader baseEnv [] inputDepTsExpl).parsedPaths = [] ∧
    (ESBuildLoader baseEnv [] inputDepTsExpl).cacheOut = [] ∧
    (ESBuildLoader baseEnv [] inputDepTsExpl).discoveryPaths =
      ["/proj/node_modules/pkg/a.ts"] :=
  C8_dependency_never_explicit baseEnv [] inputDepTsExpl "tsconfig.json"
    rfl rfl rfl (by decide) (by decide)

/-- C4: when configuration comes from automatic discovery (no caller
`tsconfigRaw`, resolution not skipped, explicit branch not taken) and
discovery finds a configuration, the found configuration's content is put
under the `tsconfigRaw` key only when the file matches its files matcher
(`undefined` is assigned otherwise), and no warning is emitted either
way. -/
theorem C4_auto_discovery_match_gate (env : LoaderEnv) (cache : Cache)
    (input : LoaderInput) (t : TsConfigResult)
    (hImpl : implInvalid input.options.implementation = false)
    (hRaw : input.options.tsconfigRaw = none)
    (hOuter : isDependency input.resourcePath = false ∨
      tsExtensionsPattern input.resourcePath = true)
    (hNoExpl : truthyOptStr input.options.tsconfig = false ∨
      isDependency input.resourcePath = true)
    (hFound : env.getTsconfig input.resourcePath = .ok (some t)) :
    (ESBuildLoader env cache input).warnings = [] ∧
    injectedTsconfigRaw (ESBuildLoader env cache input) =
      some (some (if env.filesMatcher t input.resourcePath
                  then some t.config else none)) := by
  have houterb : (!isDependency input.resourcePath ||
      tsExtensionsPattern input.resourcePath) = true := by
    rcases hOuter with h | h <;> simp [h]
  have hres : resolveTsconfig env cache input.resourcePath
      input.options.tsconfig input.options.tsconfigRaw =
      .proceedR
        (some (if env.filesMatcher t input.resourcePath
               then some t.config else none))
        ⟨[], cache, [], [input.resourcePath]⟩ := by
    unfold resolveTsconfig
    rcases hts : input.options.tsconfig with _ | p
    · simp [hRaw, houterb, autoBranch, hFound]
    · have hnb : (!isDependency input.resourcePath && (p != "")) = false := by
        rcases hNoExpl with h | h
        · rw [hts] at h
          simp [truthyOptStr] at h
          simp [h]
        · simp [h]
      simp [hRaw, houterb, hnb, autoBranch, hFound]
  unfold ESBuildLoader
  simp [hImpl, hres, injectedTsconfigRaw, finishTransform_warnings,
    finishTransform_calledWith, buildTransformOptions]

/-- Witness for C4: a discovered configuration whose matcher accepts the
file is injected, with no warning. -/
theorem C4_auto_discovery_match_gate_witness :
    (ESBuildLoader envFound [] inputProj).warnings = [] ∧
    injectedTsconfigRaw (ESBuildLoader envFound [] inputProj) =
      some (some (if envFound.filesMatcher ⟨"cfgB", "/proj/tsconfig.json"⟩
                    "/proj/src/a.ts"
                  then some "cfgB" else none)) :=
  C4_auto_discovery_match_gate envFound [] inputProj
    ⟨"cfgB", "/proj/tsconfig.json"⟩ rfl rfl (Or.inl (by decide))
    (Or.inl rfl) rfl

/-- C3: when automatic discovery throws a parse error, a dependency file
gets the wrapped error only as a warning and is transformed with no
configuration injected, while a non-dependency file's completion handle is
called with the wrapped error (prefixed to name tsconfig parsing as the
origin) and the transformer is never invoked. -/
theorem C3_discovery_parse_failure (env : LoaderEnv) (cache : Cache)
    (input : LoaderInput) (msg : String)
    (hImpl : implInvalid input.options.implementation = false)
    (hRaw : input.options.tsconfigRaw = none)
    (hTs : truthyOptStr input.options.tsconfig = false)
    (hExt : tsExtensionsPattern input.resourcePath = true)
    (hErr : env.getTsconfig input.resourcePath = .error msg) :
    if isDependency input.resourcePath = true then
      (ESBuildLoader env cache input).warnings = [wrapDiscoveryError msg] ∧
      injectedTsconfigRaw (ESBuildLoader env cache input) = some none ∧
      (ESBuildLoader env cache input).transformCalledWith ≠ none
    else
      (ESBuildLoader env cache input).outcome =
        .doneFailure (.error (wrapDiscoveryError msg)) ∧
      (ESBuildLoader env cache input).transformCalledWith = none ∧
      (ESBuildLoader env cache input).warnings = [] := by
  have hempty : ∀ p : String, input.options.tsconfig = some p → p = "" := by
    intro p hp
    rw [hp] at hTs
    simpa [truthyOptStr] using hTs
  by_cases hdep : isDependency input.resourcePath = true
  · have hres : resolveTsconfig env cache input.resourcePath
        input.options.tsconfig input.options.tsconfigRaw =
        .proceedR none
          ⟨[wrapDiscoveryError msg], cache, [], [input.resourcePath]⟩ := by
      unfold resolveTsconfig
      rcases hts : input.options.tsconfig with _ | p
      · simp [hRaw, hdep, hExt, autoBranch, hErr]
      · simp [hRaw, hdep, hExt, hempty p hts, autoBranch, hErr]
    unfold ESBuildLoader
    simp [hdep, hImpl, hres, injectedTsconfigRaw, finishTransform_warnings,
      finishTransform_calledWith, buildTransformOptions]
  · have hdep' : isDependency input.resourcePath = false := by
      simpa using hdep
    have hres : resolveTsconfig env cache input.resourcePath
        input.options.tsconfig input.options.tsconfigRaw =
        .abort (.error (wrapDiscoveryError msg))
          ⟨[], cache, [], [input.resourcePath]⟩ := by
      unfold resolveTsconfig
      rcases hts : input.options.tsconfig with _ | p
      · simp [hRaw, hdep', autoBranch, hErr]
      · simp [hRaw, hdep', hempty p hts, autoBranch, hErr]
    unfold ESBuildLoader
    simp [hdep, hImpl, hres]

/-- Witness for C3: a non-dependency file under a discovery environment
that throws aborts with the wrapped error, transformer untouched. -/
theorem C3_discovery_parse_failure_witness :
    if isDependency "/proj/src/a.ts" = true then
      (ESBuildLoader envDiscErr [] inputProj).warnings =
        [wrapDiscoveryError "bad json"] ∧
      injectedTsconfigRaw (ESBuildLoader envDiscErr [] inputProj) =
        some none ∧
      (ESBuildLoader envDiscErr [] inputProj).transformCalledWith ≠ none
    else
      (ESBuildLoader envDiscErr [] inputProj).outcome =
        .doneFailure (.error (wrapDiscoveryError "bad json")) ∧
      (ESBuildLoader envDiscErr [] inputProj).transformCalledWith = none ∧
      (ESBuildLoader envDiscErr [] inputProj).warnings = [] :=
  C3_discovery_parse_failure envDiscErr [] inputProj "bad json" rfl rfl rfl
    (by decide) rfl

theorem resolveTsconfig_explicit (env : LoaderEnv) (cache : Cache)
    (rp : String) (tsp : Option String) (p : String) (userRaw : Option TsRaw)
    (hRaw : userRaw = none) (hp : tsp = some p) (hne : p ≠ "")
    (hDep : isDependency rp = false) :
    resolveTsconfig env cache rp tsp userRaw =
      explicitBranch env cache rp p := by
  unfold resolveTsconfig
  simp [hRaw, hp, hDep, hne]

theorem explicitBranch_of_lookup (env : LoaderEnv) (cache : Cache)
    (rp p : String) (r : TsConfigResult)
    (hr : explicitLookup env cache p = some r) :
    ∃ c' parsed,
      explicitBranch env cache rp p =
        .proceedR (some (some r.config))
          ⟨if env.filesMatcher r rp then []
            else [mismatchWarning (env.resolvePath p) rp],
            c', parsed, []⟩ ∧
      cacheGet c' ("esbuild-loader:" ++ env.resolvePath p) = some r ∧
      (cacheGet cache ("esbuild-loader:" ++ env.resolvePath p) = some r →
        c' = cache ∧ parsed = ([] : List String)) := by
  simp only [explicitLookup] at hr
  rcases hget : cacheGet cache ("esbuild-loader:" ++ env.resolvePath p)
    with _ | r0
  · rw [hget] at hr
    rcases hparse : env.parseTsconfig (env.resolvePath p) with e | cfg
    · rw [hparse] at hr
      simp at hr
    · rw [hparse] at hr
      simp only [Option.some.injEq] at hr
      refine ⟨cacheSet cache ("esbuild-loader:" ++ env.resolvePath p)
          ⟨cfg, env.resolvePath p⟩, [env.resolvePath p], ?_, ?_, ?_⟩
      · rw [← hr]
        simp [explicitBranch, hget, hparse, explicitFinish]
      · rw [← hr]
        exact cacheGet_set_self _ _ _
      · intro hcontr
        exact absurd hcontr (by simp)
  · rw [hget] at hr
    simp only [Option.some.injEq] at hr
    refine ⟨cache, [], ?_, ?_, ?_⟩
    · rw [← hr]
      simp [explicitBranch, hget, explicitFinish]
    · rw [hget, hr]
    · intro _
      exact ⟨rfl, rfl⟩

/-- C1: for a non-dependency file with an explicit `tsconfig` path option
and no caller `tsconfigRaw`, the resolved configuration's content is put
under the `tsconfigRaw` key of the transform request whether or not the
file matches the configuration's files matcher, and the warning naming
both the resolved tsconfig path and the file path is emitted exactly when
the file does not match. -/
theorem C1_explicit_tsconfig_force_applied (env : LoaderEnv) (cache : Cache)
    (input : LoaderInput) (p : String) (r : TsConfigResult)
    (hImpl : implInvalid input.options.implementation = false)
    (hRaw : input.options.tsconfigRaw = none)
    (hp : input.options.tsconfig = some p) (hne : p ≠ "")
    (hDep : isDependency input.resourcePath = false)
    (hr : explicitLookup env cache p = some r) :
    injectedTsconfigRaw (ESBuildLoader env cache input) =
      some (some (some r.config)) ∧
    (ESBuildLoader env cache input).warnings =
      (if env.filesMatcher r input.resourcePath then []
       else [mismatchWarning (env.resolvePath p) input.resourcePath]) := by
  obtain ⟨c', parsed, heq, hkey, hhit⟩ :=
    explicitBranch_of_lookup env cache input.resourcePath p r hr
  have hres := resolveTsconfig_explicit env cache input.resourcePath
    input.options.tsconfig p input.options.tsconfigRaw hRaw hp hne hDep
  unfold ESBuildLoader
  simp [hImpl, hres, heq, injectedTsconfigRaw, finishTransform_warnings,
    finishTransform_calledWith, buildTransformOptions]

/-- Witness for C1: an explicit `tsconfig` option on a project file gets
its parsed content applied; the matcher accepts here, so no warning. -/
theorem C1_explicit_tsconfig_force_applied_witness :
    injectedTsconfigRaw (ESBuildLoader baseEnv [] inputProjTs) =
      some (some (some "cfgA")) ∧
    (ESBuildLoader baseEnv [] inputProjTs).warnings =
      (if baseEnv.filesMatcher ⟨"cfgA", "/proj/tsconfig.json"⟩
          "/proj/src/a.ts" then []
       else [mismatchWarning (baseEnv.resolvePath "tsconfig.json")
          "/proj/src/a.ts"]) :=
  C1_explicit_tsconfig_force_applied baseEnv [] inputProjTs "tsconfig.json"
    ⟨"cfgA", "/proj/tsconfig.json"⟩ rfl rfl rfl (by decide) (by decide) rfl

/-- C6: an explicit tsconfig path is parsed at most once per process: the
first request leaves the record in the process-wide cache under its
resolved-path key, and a second request for the same path parses nothing
and applies the identical cached record's content. -/
theorem C6_explicit_tsconfig_cached_once (env : LoaderEnv) (cache : Cache)
    (input1 input2 : LoaderInput) (p : String) (r : TsConfigResult)
    (hImpl1 : implInvalid input1.options.implementation = false)
    (hRaw1 : input1.options.tsconfigRaw = none)
    (hp1 : input1.options.tsconfig = some p)
    (hDep1 : isDependency input1.resourcePath = false)
    (hImpl2 : implInvalid input2.options.implementation = false)
    (hRaw2 : input2.options.tsconfigRaw = none)
    (hp2 : input2.options.tsconfig = some p)
    (hDep2 : isDependency input2.resourcePath = false)
    (hne : p ≠ "")
    (hr : explicitLookup env cache p = some r) :
    cacheGet (ESBuildLoader env cache input1).cacheOut
        ("esbuild-loader:" ++ env.resolvePath p) = some r ∧
    (ESBuildLoader env (ESBuildLoader env cache input1).cacheOut
        input2).parsedPaths = [] ∧
    injectedTsconfigRaw
        (ESBuildLoader env (ESBuildLoader env cache input1).cacheOut
          input2) =
      some (some (some r.config)) := by
  obtain ⟨c1, parsed1, heq1, hkey1, _⟩ :=
    explicitBranch_of_lookup env cache input1.resourcePath p r hr
  have hres1 := resolveTsconfig_explicit env cache input1.resourcePath
    input1.options.tsconfig p input1.options.tsconfigRaw hRaw1 hp1 hne hDep1
  have hcache1 : (ESBuildLoader env cache input1).cacheOut = c1 := by
    unfold ESBuildLoader
    simp [hImpl1, hres1, heq1, finishTransform_cacheOut]
  have hr2 : explicitLookup env c1 p = some r := by
    simp [explicitLookup, hkey1]
  obtain ⟨c2, parsed2, heq2, hkey2, hhit2⟩ :=
    explicitBranch_of_lookup env c1 input2.resourcePath p r hr2
  obtain ⟨hc2, hpar2⟩ := hhit2 hkey1
  have hres2 := resolveTsconfig_explicit env c1 input2.resourcePath
    input2.options.tsconfig p input2.options.tsconfigRaw hRaw2 hp2 hne hDep2
  refine ⟨?_, ?_, ?_⟩
  · rw [hcache1]
    exact hkey1
  · rw [hcache1]
    unfold ESBuildLoader
    simp [hImpl2, hres2, heq2, hpar2, finishTransform_parsedPaths]
  · rw [hcache1]
    unfold ESBuildLoader
    simp [hImpl2, hres2, heq2, injectedTsconfigRaw,
      finishTransform_calledWith, buildTransformOptions]

/-- Witness for C6: running the loader twice with the same explicit
tsconfig path leaves the parsed record cached after the first run and the
second run parses nothing and injects the same content. -/
theorem C6_explicit_tsconfig_cached_once_witness :
    cacheGet (ESBuildLoader baseEnv [] inputProjTs).cacheOut
        ("esbuild-loader:" ++ baseEnv.resolvePath "tsconfig.json") =
      some ⟨"cfgA", "/proj/tsconfig.json"⟩ ∧
    (ESBuildLoader baseEnv (ESBuildLoader baseEnv [] inputProjTs).cacheOut
        inputProjTs).parsedPaths = [] ∧
    injectedTsconfigRaw
        (ESBuildLoader baseEnv
          (ESBuildLoader baseEnv [] inputProjTs).cacheOut inputProjTs) =
      some (some (some "cfgA")) :=
  C6_explicit_tsconfig_cached_once baseEnv [] inputProjTs inputProjTs
    "tsconfig.json" ⟨"cfgA", "/proj/tsconfig.json"⟩ rfl rfl rfl (by decide)
    rfl rfl rfl (by decide) (by decide) rfl

/-- C9: whenever the transformer is invoked, the request's `supported`
flags read `dynamic-import` as `true` unless the caller's own `supported`
option carries a `dynamic-import` entry (which then wins), and every other
caller-supplied flag reads exactly as the caller gave it. -/
theorem C9_dynamic_import_default (env : LoaderEnv) (cache : Cache)
    (input : LoaderInput) (s : String) (opts : TransformOptions)
    (h : (ESBuildLoader env cache input).transformCalledWith =
      some (s, opts)) :
    (∀ b, objGet (input.options.supported.getD []) "dynamic-import" =
        some b → objGet opts.supported "dynamic-import" = some b) ∧
    (objGet (input.options.supported.getD []) "dynamic-import" = none →
      objGet opts.supported "dynamic-import" = some true) ∧
    (∀ k, k ≠ "dynamic-import" →
      objGet opts.supported k =
        objGet (input.options.supported.getD []) k) := by
  have hsup : opts.supported =
      ("dynamic-import", true) :: (input.options.supported.getD []) := by
    unfold ESBuildLoader at h
    by_cases hv : implInvalid input.options.implementation = true
    · simp [hv] at h
    · simp only [hv, Bool.false_eq_true, if_false, ite_false] at h
      rcases hres : resolveTsconfig env cache input.resourcePath
          input.options.tsconfig input.options.tsconfigRaw
        with ⟨e, st⟩ | ⟨e, st⟩ | ⟨raw, st⟩
      · rw [hres] at h
        simp at h
      · rw [hres] at h
        simp at h
      · rw [hres] at h
        rw [finishTransform_calledWith] at h
        simp only [Option.some.injEq, Prod.mk.injEq] at h
        rw [← h.2]
        rfl
  rw [hsup]
  refine ⟨?_, ?_, ?_⟩
  · intro b hb
    simp [objGet, hb]
  · intro hb
    simp [objGet, hb]
  · intro k hk
    cases hres : objGet (input.options.supported.getD []) k with
    | some v => simp [objGet, hres]
    | none => simp [objGet, hres, Ne.symm hk]

/-- Witness for C9: with no caller `supported` option, the request reaching
the transformer reads `dynamic-import` as `true`. -/
theorem C9_dynamic_import_default_witness :
    objGet (buildTransformOptions inputProj none).supported
      "dynamic-import" = some true :=
  (C9_dynamic_import_default baseEnv [] inputProj "let x"
      (buildTransformOptions inputProj none) rfl).2.1 rfl

/-- C10: on a successful transformation, a missing map completes as
`undefined`, an empty-string map is forwarded as-is, and the loader hands
a string to `JSON.parse` only when the map is a non-empty string. -/
theorem C10_falsy_map_not_parsed (env : LoaderEnv) (cache : Cache)
    (input : LoaderInput) (code : String) (m : Option String)
    (raw : Option TsRaw) (st : ResolveState)
    (hImpl : input.options.implementation = none)
    (hres : resolveTsconfig env cache input.resourcePath
        input.options.tsconfig input.options.tsconfigRaw = .proceedR raw st)
    (htf : env.defaultTransform input.source
        (buildTransformOptions input raw) = .ok ⟨code, m⟩) :
    (m = none →
      (ESBuildLoader env cache input).outcome = .doneSuccess code .undef ∧
      (ESBuildLoader env cache input).jsonParsedStrings = []) ∧
    (m = some "" →
      (ESBuildLoader env cache input).outcome =
        .doneSuccess code (.falsyStr "") ∧
      (ESBuildLoader env cache input).jsonParsedStrings = []) ∧
    (∀ s, s ≠ "" → m = some s →
      (ESBuildLoader env cache input).jsonParsedStrings = [s]) := by
  have hv : implInvalid input.options.implementation = false := by
    simp [implInvalid, hImpl]
  have hsel : selectTransform env.defaultTransform
      input.options.implementation = env.defaultTransform := by
    rw [hImpl]
    rfl
  refine ⟨?_, ?_, ?_⟩
  · intro hm
    subst hm
    unfold ESBuildLoader
    simp [hv, hres, hsel, finishTransform, htf]
  · intro hm
    subst hm
    unfold ESBuildLoader
    simp [hv, hres, hsel, finishTransform, htf]
  · intro s hs hm
    subst hm
    unfold ESBuildLoader
    rcases hj : env.jsonParse s with e | j <;>
      simp [hv, hres, hsel, finishTransform, htf, hs, hj]

/-- Witness for C10: a transformer returning no map completes with an
`undefined` map argument and nothing is JSON-parsed. -/
theorem C10_falsy_map_not_parsed_witness :
    (ESBuildLoader envNoMap [] inputRaw).outcome =
      .doneSuccess "let x;" .undef ∧
    (ESBuildLoader envNoMap [] inputRaw).jsonParsedStrings = [] :=
  (C10_falsy_map_not_parsed envNoMap [] inputRaw "let x;" none
      (some (some "RAW")) ⟨[], [], [], []⟩ rfl rfl rfl).1 rfl

end EsbuildLoader
